import Mathlib

/-!
Shallow embedding of `script.js` from the valentines-website repository.

The page is a three-stage experience (CAPTCHA challenge → proposal with an
evasive "No" button → celebration with confetti, starfield and a typewriter
message).  Every definition below is translated directly from the JavaScript
source; machine floats are modelled as exact rationals (the decimal literals
of the source are read as the rationals they denote), `Math.random()` draws
are injected as explicit parameters, `Math.sin` and `Math.PI` — which never
influence any control-flow decision the claims are about — are injected as
oracle parameters, and timer callbacks are modelled as explicit state
transitions.
-/

namespace Valentine

/- ────────────────────────────────────────────────────────────────
   PAGE 1 — CAPTCHA  (`CAPTCHA_IMAGES`, `verifyCaptcha`)
   ──────────────────────────────────────────────────────────────── -/

/-- One entry of the `CAPTCHA_IMAGES` catalog: `{ src, isTarget, alt }`. -/
structure CaptchaImage where
  src : String
  isTarget : Bool
  alt : String
deriving DecidableEq, Repr

/-- The fixed catalog from the top of `script.js`. -/
def CAPTCHA_IMAGES : List CaptchaImage :=
  [ ⟨"assets/captcha/boyfriend-1.jpg", true,  "Photo candidate 1"⟩,
    ⟨"assets/captcha/boyfriend-2.jpg", true,  "Photo candidate 2"⟩,
    ⟨"assets/captcha/boyfriend-3.jpg", true,  "Photo candidate 3"⟩,
    ⟨"assets/captcha/boyfriend-4.jpg", true,  "Photo candidate 4"⟩,
    ⟨"assets/captcha/other-1.jpg",     false, "Photo candidate 5"⟩,
    ⟨"assets/captcha/other-2.jpg",     false, "Photo candidate 6"⟩,
    ⟨"assets/captcha/other-3.jpg",     false, "Photo candidate 7"⟩,
    ⟨"assets/captcha/other-4.jpg",     false, "Photo candidate 8"⟩,
    ⟨"assets/captcha/other-5.jpg",     false, "Photo candidate 9"⟩ ]

/-- The escalating rejection messages of `verifyCaptcha`. -/
def CAPTCHA_MESSAGES : List String :=
  [ "Hmm, that\x27s not right. Try again",
    "Umm ... come on now",
    "Ok now i\x27m offended 💔" ]

/-- Result of one `verifyCaptcha` run. -/
inductive VerifyResult
  | accepted
  | rejected
deriving DecidableEq, Repr

/-- The mutable page state that `verifyCaptcha` touches:
`failureCount`, the error element and the hint element. -/
structure CaptchaState where
  failureCount : ℕ
  errorMsg : Option String
  errorVisible : Bool
  hintVisible : Bool
deriving DecidableEq, Repr

/-- The `cells.forEach` loop of `verifyCaptcha`: cell number `i` of the grid
has `dataset.index = i` and `dataset.isTarget = flags[i]`, and the loop clears
`allCorrect` whenever `isTarget !== selectedCells.has(index)`.  `flags` is the
list of `isTarget` values of the displayed round, in display order. -/
def allCorrect (flags : List Bool) (sel : Finset ℕ) : Bool :=
  (List.range flags.length).all (fun i => flags.getD i false == decide (i ∈ sel))

/-- `verifyCaptcha`: if all cells are correct the page transitions (state is
left alone here); otherwise `failureCount` is incremented and the message
`messages[min(failureCount - 1, messages.length - 1)]` is shown, together
with the hint. -/
def verifyCaptcha (flags : List Bool) (sel : Finset ℕ) (s : CaptchaState) :
    VerifyResult × CaptchaState :=
  if allCorrect flags sel then (VerifyResult.accepted, s)
  else
    let fc := s.failureCount + 1
    let msgIndex := min (fc - 1) (CAPTCHA_MESSAGES.length - 1)
    (VerifyResult.rejected,
      { failureCount := fc,
        errorMsg := some (CAPTCHA_MESSAGES.getD msgIndex ""),
        errorVisible := true,
        hintVisible := true })

/-- The set of displayed indices whose item is a target. -/
def targetIndices (flags : List Bool) : Finset ℕ :=
  (Finset.range flags.length).filter (fun i => flags.getD i false = true)

/- ────────────────────────────────────────────────────────────────
   PAGE 2 — "No" button evasion  (`evadeNoButton`)
   ──────────────────────────────────────────────────────────────── -/

/-- An axis-aligned rectangle as returned by `getBoundingClientRect`. -/
structure Rect where
  left : ℚ
  top : ℚ
  width : ℚ
  height : ℚ
deriving DecidableEq, Repr

def Rect.right (r : Rect) : ℚ := r.left + r.width

def Rect.bottom (r : Rect) : ℚ := r.top + r.height

/-- Everything `evadeNoButton` reads from the environment on one event: the
pointer position, the current bounding rectangles, the viewport size, and the
stream of `Math.random()` pairs drawn by the position-sampling loop. -/
structure EvadeEvent where
  clientX : ℚ
  clientY : ℚ
  noBtnRect : Rect
  yesRect : Rect
  vw : ℚ
  vh : ℚ
  samples : ℕ → ℚ × ℚ

/-- `const MAX_EVADE_BEFORE_GONE = 8`. -/
def MAX_EVADE_BEFORE_GONE : ℕ := 8

/-- `const detectionRadius = Math.max(60, 120 - noEvadeAttempts * 5)`. -/
def detectionRadius (attempts : ℕ) : ℚ := max 60 (120 - (attempts : ℚ) * 5)

/-- The body of the sampling loop:
`newX = padding + Math.random() * (vw - btnW - padding * 2)` and the analogue
for `newY`, with `padding = 20`; draw number `n` of the event is used. -/
def samplePoint (e : EvadeEvent) (n : ℕ) : ℚ × ℚ :=
  (20 + (e.samples n).1 * (e.vw - e.noBtnRect.width - 20 * 2),
   20 + (e.samples n).2 * (e.vh - e.noBtnRect.height - 20 * 2))

/-- The rejection condition of the `do … while` loop: the candidate position
overlaps the Yes-button rectangle grown by 30 px on every side. -/
def overlapsYes (e : EvadeEvent) (p : ℚ × ℚ) : Bool :=
  decide (p.1 < e.yesRect.right + 30) &&
  decide (p.1 + e.noBtnRect.width > e.yesRect.left - 30) &&
  decide (p.2 < e.yesRect.bottom + 30) &&
  decide (p.2 + e.noBtnRect.height > e.yesRect.top - 30)

/-- The `do … while (attempts < 50 && overlap)` loop.  `n` is the number of
attempts already made; the fuel argument only realises the structural
recursion — called with `fuel ≥ 50 - n` (as `sampleLoop` does) it never runs
out before the source loop exits on its own `attempts < 50` bound, and its
exhaustion branch returns the last sample exactly like the loop exit does. -/
def sampleLoopGo (e : EvadeEvent) : ℕ → ℕ → (ℚ × ℚ) × ℕ
  | n, 0 => (samplePoint e n, n + 1)
  | n, fuel + 1 =>
    if n + 1 < 50 ∧ overlapsYes e (samplePoint e n) = true then
      sampleLoopGo e (n + 1) fuel
    else (samplePoint e n, n + 1)

/-- Run the sampling loop from `attempts = 0`: returns the accepted position
and the number of attempts consumed. -/
def sampleLoop (e : EvadeEvent) : (ℚ × ℚ) × ℕ := sampleLoopGo e 0 50

/-- The evasion state: `noEvadeAttempts`, `noButtonGone`, and the inline
`left`/`top` style of the button (`none` = default stylesheet position). -/
structure EvadeState where
  attempts : ℕ
  gone : Bool
  styleLeft : Option ℚ
  styleTop : Option ℚ
deriving DecidableEq, Repr

/-- The state before any evasion: `noEvadeAttempts = 0`,
`noButtonGone = false`, default position. -/
def initEvadeState : EvadeState := ⟨0, false, none, none⟩

/-- Squared distance from the pointer to the button center.  The source
compares `Math.hypot(dx, dy) < detectionRadius`; since the radius is
positive this is encoded equivalently as `dx² + dy² < detectionRadius²`. -/
def distanceSq (e : EvadeEvent) : ℚ :=
  (e.clientX - (e.noBtnRect.left + e.noBtnRect.width / 2)) ^ 2 +
  (e.clientY - (e.noBtnRect.top + e.noBtnRect.height / 2)) ^ 2

/-- The proximity guard of `evadeNoButton`. -/
def evadeTriggered (e : EvadeEvent) (s : EvadeState) : Prop :=
  distanceSq e < detectionRadius s.attempts ^ 2

instance (e : EvadeEvent) (s : EvadeState) : Decidable (evadeTriggered e s) := by
  unfold evadeTriggered; infer_instance

/-- `evadeNoButton`: no-op when the button is gone; on a proximity hit
increment `noEvadeAttempts`; at the retirement threshold freeze the position
and set `noButtonGone`; otherwise move to the freshly sampled position. -/
def evadeNoButton (e : EvadeEvent) (s : EvadeState) : EvadeState :=
  if s.gone then s
  else if distanceSq e < detectionRadius s.attempts ^ 2 then
    if MAX_EVADE_BEFORE_GONE ≤ s.attempts + 1 then
      { s with attempts := s.attempts + 1, gone := true }
    else
      { s with
        attempts := s.attempts + 1,
        styleLeft := some (sampleLoop e).1.1,
        styleTop := some (sampleLoop e).1.2 }
  else s

/-- Intersection of two axis-aligned rectangles (strict overlap). -/
def rectsIntersect (a b : Rect) : Prop :=
  a.left < b.right ∧ a.right > b.left ∧ a.top < b.bottom ∧ a.bottom > b.top

/-- Grow a rectangle by a margin `m` on every side. -/
def expandRect (r : Rect) (m : ℚ) : Rect :=
  ⟨r.left - m, r.top - m, r.width + 2 * m, r.height + 2 * m⟩

/-- The candidate rectangle of the No button placed at sampled point `p`. -/
def candidateRect (e : EvadeEvent) (p : ℚ × ℚ) : Rect :=
  ⟨p.1, p.2, e.noBtnRect.width, e.noBtnRect.height⟩

/- ────────────────────────────────────────────────────────────────
   CONFETTI ENGINE  (`createConfettiPiece`, `animateConfetti`, …)
   ──────────────────────────────────────────────────────────────── -/

/-- `CONFETTI_COLORS`. -/
def CONFETTI_COLORS : List String :=
  [ "#E63946", "#FF6B9D", "#FFB3BA", "#FFD6E8",
    "#FF4757", "#FF6348", "#FFA07A", "#FFFFFF",
    "#C2185B", "#F50057", "#FF80AB", "#FFCDD2" ]

/-- One confetti piece, with the attributes of `createConfettiPiece`. -/
structure Confetti where
  x : ℚ
  y : ℚ
  w : ℚ
  h : ℚ
  color : String
  rotation : ℚ
  rotationSpeed : ℚ
  velocityX : ℚ
  velocityY : ℚ
  oscillateAmplitude : ℚ
  oscillateSpeed : ℚ
  phase : ℚ
  opacity : ℚ
deriving DecidableEq, Repr

/-- The `Math.random()` draws consumed by one `createConfettiPiece` call. -/
structure ConfettiRand where
  rX : ℚ
  rY : ℚ
  rW : ℚ
  rH : ℚ
  rColor : ℚ
  rRot : ℚ
  rRotSpeed : ℚ
  rVx : ℚ
  rVy : ℚ
  rAmp : ℚ
  rOscSpeed : ℚ
  rPhase : ℚ

/-- `createConfettiPiece` for a canvas of width `W` and height `H`; `piQ` is
the (rational) float value of `Math.PI`, which only enters the initial
oscillation phase. -/
def createConfettiPiece (W H piQ : ℚ) (r : ConfettiRand) : Confetti :=
  { x := r.rX * W,
    y := r.rY * H - H,
    w := 6 + r.rW * 8,
    h := 4 + r.rH * 6,
    color := CONFETTI_COLORS.getD (Int.toNat ⌊r.rColor * 12⌋) "",
    rotation := r.rRot * 360,
    rotationSpeed := (r.rRotSpeed - 1 / 2) * 10,
    velocityX := (r.rVx - 1 / 2) * 4,
    velocityY := 3 / 2 + r.rVy * 3,
    oscillateAmplitude := r.rAmp * 3,
    oscillateSpeed := 1 / 50 + r.rOscSpeed * (3 / 100),
    phase := r.rPhase * piQ * 2,
    opacity := 1 }

/-- The per-piece update performed by one `animateConfetti` frame; `sinQ` is
an oracle for the float function `Math.sin`, which only enters the lateral
oscillation of `x` and never any cull decision. -/
def updateConfettiPiece (sinQ : ℚ → ℚ) (H : ℚ) (p : Confetti) : Confetti :=
  let phase := p.phase + p.oscillateSpeed
  let y := p.y + p.velocityY
  { p with
    phase := phase,
    x := p.x + p.velocityX + sinQ phase * p.oscillateAmplitude,
    y := y,
    rotation := p.rotation + p.rotationSpeed,
    opacity :=
      if y > H * (8 / 10) then
        max 0 (1 - (y - H * (8 / 10)) / (H * (2 / 10)))
      else p.opacity }

/-- The survival test of the frame filter:
`p.y < confettiCanvas.height + 50 && p.opacity > 0.01`. -/
def confettiAlive (H : ℚ) (p : Confetti) : Bool :=
  decide (p.y < H + 50) && decide (p.opacity > 1 / 100)

/-- One frame of `animateConfetti` restricted to the particle list: update
every piece, then remove the pieces that went off screen or faded out. -/
def confettiTick (sinQ : ℚ → ℚ) (H : ℚ) (ps : List Confetti) : List Confetti :=
  (ps.map (updateConfettiPiece sinQ H)).filter (confettiAlive H)

/-- The confetti globals: `confettiPieces` and `confettiAnimationId`. -/
structure ConfettiSys where
  confettiPieces : List Confetti
  confettiAnimationId : Option ℕ
deriving DecidableEq, Repr

/-- One full `animateConfetti` callback: tick the pieces and reschedule
(storing the fresh frame handle `nextId`) only while pieces remain; when the
list drains the handle variable is left holding its previous value. -/
def animateConfetti (sinQ : ℚ → ℚ) (H : ℚ) (nextId : ℕ) (s : ConfettiSys) :
    ConfettiSys :=
  let ps := confettiTick sinQ H s.confettiPieces
  if 0 < ps.length then
    { confettiPieces := ps, confettiAnimationId := some nextId }
  else
    { confettiPieces := ps, confettiAnimationId := s.confettiAnimationId }

/-- `launchConfetti`: push 150 fresh pieces (the delayed 80-piece secondary
burst is a separate later seeding event and is not part of this synchronous
call), then start the loop only if no frame handle is recorded. -/
def launchConfetti (W H piQ : ℚ) (sinQ : ℚ → ℚ) (rands : ℕ → ConfettiRand)
    (nextId : ℕ) (s : ConfettiSys) : ConfettiSys :=
  let s1 : ConfettiSys :=
    { s with
      confettiPieces :=
        s.confettiPieces ++
          (List.range 150).map (fun i => createConfettiPiece W H piQ (rands i)) }
  if s1.confettiAnimationId = none then animateConfetti sinQ H nextId s1 else s1

/-- `stopConfetti` has an empty body — existing pieces are left to fall. -/
def stopConfetti (s : ConfettiSys) : ConfettiSys := s

/- ────────────────────────────────────────────────────────────────
   TYPEWRITER  (`typeHTMLContent`, `startTypewriter`, `resetTypewriter`)
   ──────────────────────────────────────────────────────────────── -/

/-- A parsed segment of a rich-text source: an opaque tag or one character. -/
inductive Segment
  | tag (s : String)
  | ch (c : Char)
deriving DecidableEq, Repr

/-- The parsing loop at the top of `typeHTMLContent`: on `<` scan for the
next `>` and emit the whole tag; an unterminated `<` and every other
character become one-character segments. -/
def parseSegmentsGo : List Char → List Segment
  | [] => []
  | c :: rest =>
    if c = '<' then
      match h : rest.findIdx? (fun d => d = '>') with
      | some k =>
        Segment.tag (String.mk ('<' :: rest.take (k + 1))) ::
          parseSegmentsGo (rest.drop (k + 1))
      | none => Segment.ch '<' :: parseSegmentsGo rest
    else Segment.ch c :: parseSegmentsGo rest
termination_by l => l.length
decreasing_by
  · simp [List.length_drop]; omega
  · simp
  · simp

/-- Parse an HTML source string into segments. -/
def parseSegments (html : String) : List Segment := parseSegmentsGo html.toList

/-- The state of one line being typed by `typeHTMLContent`: the abort flag of
the captured signal, the `built` accumulator, the segment index, the
element's displayed content, whether the trailing cursor is attached, and
whether `onDone` has fired. -/
structure TypeLineState where
  aborted : Bool
  built : String
  segIdx : ℕ
  content : String
  cursorShown : Bool
  doneFired : Bool
deriving DecidableEq, Repr

/-- One `typeNext` timer callback.  It returns immediately when the signal is
aborted; past the last segment it strips the cursor and fires `onDone`; a tag
segment is appended to `built` and the callback recurses synchronously; a
character segment is appended, displayed with the cursor, and the next
callback is left to the next timer.  The fuel only realises the synchronous
tag recursion; `typeNextCb` supplies more fuel than there are segments, so it
never runs out. -/
def typeNextGo (segs : List Segment) : ℕ → TypeLineState → TypeLineState
  | 0, s => s
  | fuel + 1, s =>
    if s.aborted then s
    else if h : s.segIdx < segs.length then
      match segs.get ⟨s.segIdx, h⟩ with
      | Segment.tag t =>
        typeNextGo segs fuel { s with built := s.built ++ t, segIdx := s.segIdx + 1 }
      | Segment.ch c =>
        { s with
          built := s.built.push c,
          segIdx := s.segIdx + 1,
          content := s.built.push c,
          cursorShown := true }
    else { s with content := s.built, cursorShown := false, doneFired := true }

/-- One fired timer callback of `typeHTMLContent`. -/
def typeNextCb (segs : List Segment) (s : TypeLineState) : TypeLineState :=
  typeNextGo segs (segs.length + 1) s

/-- `typewriterAbortController.abort()` as seen by the captured signal: it
sets the `aborted` flag and touches nothing else. -/
def abortSignal (s : TypeLineState) : TypeLineState := { s with aborted := true }

/-- The abort half of `resetTypewriter`: when a controller exists it is
aborted and the variable is nulled; when none exists nothing happens. -/
def abortTypewriter : Option Bool → Option Bool
  | none => none
  | some _ => none

/- ────────────────────────────────────────────────────────────────
   Reveal bookkeeping for the concurrency contract (C5)
   ──────────────────────────────────────────────────────────────── -/

/-- One reveal sequence, identified with its `AbortController`: whether its
signal has been aborted and whether it ran to natural completion. -/
structure Reveal where
  aborted : Bool
  finished : Bool
deriving DecidableEq, Repr

/-- The controller action of `startTypewriter`:
`typewriterAbortController = new AbortController()` — a fresh, unaborted
controller is installed and every previously created controller is left
untouched (in particular, not aborted). -/
def startTypewriterCtl (rs : List Reveal) : List Reveal := ⟨false, false⟩ :: rs

/-- A reveal is in flight when it is neither aborted nor finished. -/
def inFlight (r : Reveal) : Bool := !r.aborted && !r.finished

/-- Number of in-flight reveals. -/
def inFlightCount (rs : List Reveal) : ℕ := rs.countP (fun r => inFlight r)

/-- The globals governing who may start a reveal: `envelopeOpened` and the
list of controllers ever created (head = `typewriterAbortController`). -/
structure TWSys where
  envelopeOpened : Bool
  reveals : List Reveal
deriving DecidableEq, Repr

/-- The discrete events that touch the typewriter in `script.js`:
`openEnvelope` (guarded by `envelopeOpened`, it leads to `startTypewriter`),
the natural completion of the current reveal, and the replay-button handler
(`resetTypewriter` plus `envelopeOpened = false`). -/
inductive TWEvent
  | openEnv
  | finishReveal
  | replay
deriving DecidableEq, Repr

/-- Natural completion of the current reveal: its callbacks run to the end
only when its signal was never aborted. -/
def markFinished : List Reveal → List Reveal
  | [] => []
  | r :: rs => (if r.aborted then r else { r with finished := true }) :: rs

/-- The abort of `resetTypewriter`, acting on the current controller. -/
def abortHead : List Reveal → List Reveal
  | [] => []
  | r :: rs => ({ r with aborted := true } : Reveal) :: rs

/-- One event step of the reveal bookkeeping. -/
def twStep (s : TWSys) : TWEvent → TWSys
  | TWEvent.openEnv =>
    if s.envelopeOpened then s
    else { envelopeOpened := true, reveals := startTypewriterCtl s.reveals }
  | TWEvent.finishReveal => { s with reveals := markFinished s.reveals }
  | TWEvent.replay => { envelopeOpened := false, reveals := abortHead s.reveals }

/-- The page-load state: envelope closed, no controller ever created. -/
def twInit : TWSys := ⟨false, []⟩

/-- The inductive invariant of the reveal bookkeeping: with the envelope
closed nothing is in flight, and no superseded controller is in flight. -/
def twInv (s : TWSys) : Prop :=
  (s.envelopeOpened = false → inFlightCount s.reveals = 0) ∧
  (∀ r ∈ s.reveals.tail, inFlight r = false)

/- ────────────────────────────────────────────────────────────────
   GRID SHUFFLE AND THE REPLAY (GLOBAL RESET) HANDLER
   ──────────────────────────────────────────────────────────────── -/

/-- The swap `[arr[i], arr[j]] = [arr[j], arr[i]]` of `shuffleArray`. -/
def fyStep {α : Type} (arr : List α) (i j : ℕ) : List α :=
  match arr.get? i, arr.get? j with
  | some a, some b => (arr.set i b).set j a
  | _, _ => arr

/-- The Fisher–Yates loop of `shuffleArray`, counting `i` down to 1 with
`j = Math.floor(Math.random() * (i + 1))`; draw `i` of the stream plays the
role of the `Math.random()` call of iteration `i`. -/
def shuffleGo {α : Type} (rand : ℕ → ℚ) : List α → ℕ → List α
  | arr, 0 => arr
  | arr, i + 1 =>
    shuffleGo rand (fyStep arr (i + 1) (Int.toNat ⌊rand (i + 1) * ((i : ℚ) + 2)⌋)) i

/-- `shuffleArray`. -/
def shuffleArray {α : Type} (rand : ℕ → ℚ) (arr : List α) : List α :=
  shuffleGo rand arr (arr.length - 1)

/-- Every module-level mutable of `script.js` that the replay handler
touches, one field per global (DOM style strings are reduced to the logical
content they carry). -/
structure AppState where
  currentPage : String
  failureCount : ℕ
  selectedCells : Finset ℕ
  gridOrder : List CaptchaImage
  verifyBtnDisabled : Bool
  errorVisible : Bool
  hintVisible : Bool
  evade : EvadeState
  noGoneMsgText : String
  noGoneMsgVisible : Bool
  envelopeOpened : Bool
  replayBtnHidden : Bool
  twController : Option Bool
  twLines : List String
  galleryLeftIdx : ℕ
  galleryRightIdx : ℕ
  galleryHidden : Bool
  stars : List Confetti
  starAnimId : Option ℕ
  confetti : ConfettiSys
  heartInterval : Option ℕ
deriving DecidableEq

/-- The replay-button click handler (`resetAll` of the spec): every global is
restored to its initial value, `initCaptchaGrid` reshuffles the catalog with
the injected random stream and clears the selection, `resetTypewriter`
restores the original line contents (`originals`), the confetti handle is
cancelled and cleared, and the page returns to the CAPTCHA stage.  The prior
state is ignored entirely: every branch of the handler ends in the same
constant assignment. -/
def resetAll (rand : ℕ → ℚ) (originals : List String) (_s : AppState) : AppState :=
  { currentPage := "captcha-page",
    failureCount := 0,
    selectedCells := ∅,
    gridOrder := shuffleArray rand CAPTCHA_IMAGES,
    verifyBtnDisabled := true,
    errorVisible := false,
    hintVisible := false,
    evade := initEvadeState,
    noGoneMsgText := "",
    noGoneMsgVisible := false,
    envelopeOpened := false,
    replayBtnHidden := true,
    twController := none,
    twLines := originals,
    galleryLeftIdx := 0,
    galleryRightIdx := 0,
    galleryHidden := true,
    stars := [],
    starAnimId := none,
    confetti := ⟨[], none⟩,
    heartInterval := none }

/- ────────────────────────────────────────────────────────────────
   Concrete inputs used by the witness theorems
   ──────────────────────────────────────────────────────────────── -/

/-- A concrete proximity event: pointer near the button, Yes button far
away, every sample accepted on the first draw. -/
def evadeEventEx : EvadeEvent :=
  { clientX := 0, clientY := 0,
    noBtnRect := ⟨0, 0, 10, 10⟩,
    yesRect := ⟨1000, 1000, 10, 10⟩,
    vw := 800, vh := 600,
    samples := fun _ => (0, 0) }

/-- A concrete confetti piece already low on a 100-px canvas. -/
def confettiPieceEx : Confetti :=
  { x := 0, y := 40, w := 6, h := 4, color := "#E63946",
    rotation := 0, rotationSpeed := 0, velocityX := 0, velocityY := 2,
    oscillateAmplitude := 0, oscillateSpeed := 0, phase := 0, opacity := 1 }

/-- A concrete line state mid-reveal. -/
def typeLineEx : TypeLineState :=
  { aborted := false, built := "Hi", segIdx := 2, content := "Hi",
    cursorShown := true, doneFired := false }

/-- A concrete batch of random draws for one confetti piece. -/
def confettiRandEx : ConfettiRand := ⟨0, 0, 0, 0, 0, 0, 0, 0, 0, 0, 0, 0⟩

/- ────────────────────────────────────────────────────────────────
   THEOREMS
   ──────────────────────────────────────────────────────────────── -/

/-- The `cells.forEach` check succeeds exactly when the selection is the set
of target indices, provided the selection only holds displayed indices. -/
theorem allCorrect_iff (flags : List Bool) (sel : Finset ℕ)
    (hsub : sel ⊆ Finset.range flags.length) :
    allCorrect flags sel = true ↔ sel = targetIndices flags := by
  unfold allCorrect targetIndices
  rw [List.all_eq_true]
  constructor
  · intro h
    ext i
    simp only [Finset.mem_filter, Finset.mem_range]
    constructor
    · intro hi
      have hlt : i < flags.length := Finset.mem_range.mp (hsub hi)
      have h2 := h i (List.mem_range.mpr hlt)
      rw [beq_iff_eq] at h2
      exact ⟨hlt, by rw [h2]; exact decide_eq_true hi⟩
    · rintro ⟨hlt, hflag⟩
      have h2 := h i (List.mem_range.mpr hlt)
      rw [beq_iff_eq] at h2
      have : decide (i ∈ sel) = true := by rw [← h2]; exact hflag
      exact of_decide_eq_true this
  · intro hEq i hi
    have hlt := List.mem_range.mp hi
    rw [beq_iff_eq]
    by_cases hf : flags.getD i false = true
    · have hmem : i ∈ sel := by
        rw [hEq]
        exact Finset.mem_filter.mpr ⟨Finset.mem_range.mpr hlt, hf⟩
      rw [hf, decide_eq_true hmem]
    · have hn : flags.getD i false = false := Bool.eq_false_iff.mpr hf
      have hnot : i ∉ sel := by
        intro hmem
        rw [hEq] at hmem
        exact hf (Finset.mem_filter.mp hmem).2
      rw [hn, decide_eq_false hnot]

/-- C1: for every round and every selection set of displayed indices,
`verifyCaptcha` accepts exactly when the selection set equals the set of
target-item indices; any other set is rejected. -/
theorem verifyCaptcha_accepted_iff (flags : List Bool) (sel : Finset ℕ)
    (s : CaptchaState) (hsub : sel ⊆ Finset.range flags.length) :
    (verifyCaptcha flags sel s).1 = VerifyResult.accepted ↔
      sel = targetIndices flags := by
  by_cases h : allCorrect flags sel = true
  · rw [verifyCaptcha, if_pos h]
    simpa using (allCorrect_iff flags sel hsub).mp h
  · rw [verifyCaptcha, if_neg h]
    constructor
    · intro hcontra
      exact absurd hcontra (by simp)
    · intro hEq
      exact absurd ((allCorrect_iff flags sel hsub).mpr hEq) h

/-- C1 witness: selecting exactly the single target of a two-item round is
accepted. -/
theorem verifyCaptcha_accepted_iff_witness :
    (verifyCaptcha [true, false] {0} ⟨0, none, false, false⟩).1 =
        VerifyResult.accepted ↔ ({0} : Finset ℕ) = targetIndices [true, false] :=
  verifyCaptcha_accepted_iff [true, false] {0} ⟨0, none, false, false⟩ (by decide)

/-- C4 counterexample: the catalog does not carry 5 targets — it carries
exactly 4 (`boyfriend-1`‥`boyfriend-4`), so the claimed 5/4 split is false. -/
theorem captcha_catalog_counts_counterexample :
    CAPTCHA_IMAGES.countP (fun img => img.isTarget) = 4 ∧
      ¬ (CAPTCHA_IMAGES.countP (fun img => img.isTarget) = 5 ∧
         CAPTCHA_IMAGES.countP (fun img => !img.isTarget) = 4) := by
  decide

/-- C4 (amended): the fixed catalog consists of exactly 9 items of which
exactly 4 carry `isTarget = true` and exactly 5 carry `isTarget = false`. -/
theorem captcha_catalog_counts :
    CAPTCHA_IMAGES.length = 9 ∧
      CAPTCHA_IMAGES.countP (fun img => img.isTarget) = 4 ∧
      CAPTCHA_IMAGES.countP (fun img => !img.isTarget) = 5 := by
  decide

/-- C8: with the failure counter standing at `k - 1`, the `k`-th rejection
raises it to `k` and shows `messages[min(k - 1, L - 1)]` from the fixed
3-message list, while an accepted verification leaves the counter alone. -/
theorem verifyCaptcha_failure_messages (flags : List Bool) (sel : Finset ℕ)
    (s : CaptchaState) (k : ℕ) (hk : 1 ≤ k) (hfc : s.failureCount = k - 1) :
    CAPTCHA_MESSAGES.length = 3 ∧
    (allCorrect flags sel = false →
      (verifyCaptcha flags sel s).2.failureCount = k ∧
      (verifyCaptcha flags sel s).2.errorMsg =
        some (CAPTCHA_MESSAGES.getD (min (k - 1) (CAPTCHA_MESSAGES.length - 1)) "")) ∧
    (allCorrect flags sel = true →
      (verifyCaptcha flags sel s).2.failureCount = s.failureCount) := by
  refine ⟨rfl, ?_, ?_⟩
  · intro hrej
    have hcond : ¬ allCorrect flags sel = true := by simp [hrej]
    rw [verifyCaptcha, if_neg hcond]
    simp only []
    constructor
    · simp [hfc]; omega
    · simp [hfc]
  · intro hacc
    rw [verifyCaptcha, if_pos hacc]

/-- C8 witness: starting from zero failures, a wrong selection yields
failure count 1 and the first message. -/
theorem verifyCaptcha_failure_messages_witness :
    (verifyCaptcha [true] ∅ ⟨0, none, false, false⟩).2.failureCount = 1 ∧
      (verifyCaptcha [true] ∅ ⟨0, none, false, false⟩).2.errorMsg =
        some (CAPTCHA_MESSAGES.getD (min 0 (CAPTCHA_MESSAGES.length - 1)) "") := by
  have h := verifyCaptcha_failure_messages [true] ∅ ⟨0, none, false, false⟩ 1
    (by decide) rfl
  exact h.2.1 (by decide)

/-- The sampling loop with enough fuel: it consumes between `n + 1` and 50
attempts, exits overlap-free unless it exhausted the bound, and returns the
last sampled point. -/
theorem sampleLoopGo_spec (e : EvadeEvent) :
    ∀ fuel n, 50 ≤ n + fuel → n < 50 →
      n < (sampleLoopGo e n fuel).2 ∧ (sampleLoopGo e n fuel).2 ≤ 50 ∧
      ((sampleLoopGo e n fuel).2 < 50 →
        overlapsYes e (sampleLoopGo e n fuel).1 = false) ∧
      (sampleLoopGo e n fuel).1 = samplePoint e ((sampleLoopGo e n fuel).2 - 1) := by
  intro fuel
  induction fuel with
  | zero => intro n h hn; exact absurd h (by omega)
  | succ fuel ih =>
    intro n h hn
    rw [sampleLoopGo]
    by_cases hc : n + 1 < 50 ∧ overlapsYes e (samplePoint e n) = true
    · rw [if_pos hc]
      obtain ⟨h1, h2, h3, h4⟩ := ih (n + 1) (by omega) hc.1
      exact ⟨by omega, h2, h3, h4⟩
    · rw [if_neg hc]
      refine ⟨Nat.lt_succ_self n, by omega, ?_, by simp⟩
      intro hlt
      rcases Bool.eq_false_or_eq_true (overlapsYes e (samplePoint e n)) with hov | hov
      · exact absurd ⟨by simpa using hlt, hov⟩ hc
      · exact hov

/-- The loop's overlap test is exactly strict intersection of the candidate
button rectangle with the Yes rectangle grown by the 30 px margin. -/
theorem overlapsYes_iff (e : EvadeEvent) (p : ℚ × ℚ) :
    overlapsYes e p = true ↔
      rectsIntersect (candidateRect e p) (expandRect e.yesRect 30) := by
  simp only [overlapsYes, rectsIntersect, candidateRect, expandRect,
    Rect.right, Rect.bottom, Bool.and_eq_true, decide_eq_true_eq]
  constructor
  · rintro ⟨⟨⟨h1, h2⟩, h3⟩, h4⟩
    exact ⟨by linarith, by linarith, by linarith, by linarith⟩
  · rintro ⟨h1, h2, h3, h4⟩
    exact ⟨⟨⟨by linarith, by linarith⟩, by linarith⟩, by linarith⟩

/-- C7: the position-sampling loop makes between 1 and 50 attempts; whenever
it exits with fewer than 50 attempts the accepted rectangle does not
intersect the Yes-button rectangle expanded by the 30 px margin; and in
every case (exhaustion included) the accepted position is the last sampled
one. -/
theorem sampleLoop_spec (e : EvadeEvent) :
    1 ≤ (sampleLoop e).2 ∧ (sampleLoop e).2 ≤ 50 ∧
    ((sampleLoop e).2 < 50 →
      ¬ rectsIntersect (candidateRect e (sampleLoop e).1)
          (expandRect e.yesRect 30)) ∧
    (sampleLoop e).1 = samplePoint e ((sampleLoop e).2 - 1) := by
  simp only [sampleLoop]
  obtain ⟨h1, h2, h3, h4⟩ := sampleLoopGo_spec e 50 0 (by omega) (by omega)
  refine ⟨h1, h2, ?_, h4⟩
  intro hlt hint
  have hov := (overlapsYes_iff e (sampleLoopGo e 0 50).1).mpr hint
  rw [h3 hlt] at hov
  exact Bool.false_ne_true hov

/-- C7 witness: on a concrete event whose first draw is clear of the Yes
button, the loop exits after one attempt with a non-intersecting position. -/
theorem sampleLoop_spec_witness :
    ¬ rectsIntersect (candidateRect evadeEventEx (sampleLoop evadeEventEx).1)
        (expandRect evadeEventEx.yesRect 30) := by
  refine (sampleLoop_spec evadeEventEx).2.2.1 ?_
  have h : sampleLoop evadeEventEx = ((20, 20), 1) := by
    rw [sampleLoop, sampleLoopGo]
    norm_num [overlapsYes, samplePoint, evadeEventEx, Rect.right, Rect.bottom]
  rw [h]
  norm_num

/-- C2: while the button is active, a below-radius event increments the
attempt count by exactly one and retires the button exactly when the count
reaches the threshold 8; an out-of-radius event changes nothing; once
retired every further proximity event is a no-op; and the replay handler
returns the evasion state to `Active(0)`. -/
theorem evadeNoButton_state_machine :
    (∀ e s, s.gone = false → evadeTriggered e s →
      (evadeNoButton e s).attempts = s.attempts + 1) ∧
    (∀ e s, s.gone = false → evadeTriggered e s →
      ((evadeNoButton e s).gone = true ↔ MAX_EVADE_BEFORE_GONE ≤ s.attempts + 1)) ∧
    (∀ e s, s.gone = false → ¬ evadeTriggered e s → evadeNoButton e s = s) ∧
    (∀ (es : List EvadeEvent) s, s.gone = true →
      es.foldl (fun t e => evadeNoButton e t) s = s) ∧
    (∀ rand originals s, (resetAll rand originals s).evade = initEvadeState) := by
  refine ⟨?_, ?_, ?_, ?_, ?_⟩
  · intro e s hg ht
    have ht' : distanceSq e < detectionRadius s.attempts ^ 2 := ht
    rw [evadeNoButton, if_neg (by simp [hg]), if_pos ht']
    by_cases hm : MAX_EVADE_BEFORE_GONE ≤ s.attempts + 1
    · rw [if_pos hm]
    · rw [if_neg hm]
  · intro e s hg ht
    have ht' : distanceSq e < detectionRadius s.attempts ^ 2 := ht
    rw [evadeNoButton, if_neg (by simp [hg]), if_pos ht']
    by_cases hm : MAX_EVADE_BEFORE_GONE ≤ s.attempts + 1
    · rw [if_pos hm]
      simpa using hm
    · rw [if_neg hm]
      simpa [hg] using hm
  · intro e s hg ht
    have ht' : ¬ distanceSq e < detectionRadius s.attempts ^ 2 := ht
    rw [evadeNoButton, if_neg (by simp [hg]), if_neg ht']
  · intro es s hg
    induction es with
    | nil => rfl
    | cons e es ih =>
      have hstep : evadeNoButton e s = s := by
        rw [evadeNoButton, if_pos (by simp [hg])]
      simp only [List.foldl_cons, hstep]
      exact ih
  · intro rand originals s
    rfl

/-- C2 witness: a pointer 5√2 px from the fresh button's center triggers an
evasion, raising the attempt count from 0 to 1. -/
theorem evadeNoButton_state_machine_witness :
    (evadeNoButton evadeEventEx initEvadeState).attempts = 1 := by
  refine evadeNoButton_state_machine.1 evadeEventEx initEvadeState rfl ?_
  have hrad : detectionRadius initEvadeState.attempts = 120 := by
    rw [initEvadeState, detectionRadius]
    norm_num
  have hdist : distanceSq evadeEventEx = 50 := by
    rw [distanceSq, evadeEventEx]
    norm_num
  rw [evadeTriggered, hrad, hdist]
  norm_num

/-- Aborted states are fixed points of the typing callback core. -/
theorem typeNextGo_aborted (segs : List Segment) :
    ∀ fuel s, s.aborted = true → typeNextGo segs fuel s = s := by
  intro fuel
  cases fuel with
  | zero => intro s _; rfl
  | succ fuel => intro s hs; rw [typeNextGo, if_pos hs]

/-- Aborted states are fixed points of any number of fired callbacks. -/
theorem typeNextCb_aborted_iter (segs : List Segment) (s : TypeLineState)
    (hs : s.aborted = true) : ∀ n, (typeNextCb segs)^[n] s = s := by
  intro n
  induction n with
  | zero => rfl
  | succ n ih =>
    rw [Function.iterate_succ_apply]
    have h1 : typeNextCb segs s = s := by
      rw [typeNextCb]; exact typeNextGo_aborted segs _ s hs
    rw [h1, ih]

/-- C3: once the abort signal is set, every subsequently fired timer
callback is a no-op — in particular no character is ever appended to the
built string or the displayed content again, across any number of timers —
and invoking the abort operation when no controller exists is a no-op. -/
theorem typewriter_abort_halts :
    (∀ segs (s : TypeLineState) n, s.aborted = true →
      (typeNextCb segs)^[n] s = s) ∧
    (∀ segs (s : TypeLineState) n,
      ((typeNextCb segs)^[n] (abortSignal s)).content = s.content ∧
      ((typeNextCb segs)^[n] (abortSignal s)).built = s.built) ∧
    abortTypewriter none = none := by
  refine ⟨?_, ?_, rfl⟩
  · intro segs s n hs
    exact typeNextCb_aborted_iter segs s hs n
  · intro segs s n
    rw [typeNextCb_aborted_iter segs (abortSignal s) rfl n]
    exact ⟨rfl, rfl⟩

/-- C3 witness: three timer callbacks after an abort leave a concrete
mid-reveal state untouched. -/
theorem typewriter_abort_halts_witness :
    (typeNextCb [Segment.ch 'a', Segment.ch 'b'])^[3] (abortSignal typeLineEx) =
      abortSignal typeLineEx :=
  typewriter_abort_halts.1 [Segment.ch 'a', Segment.ch 'b'] (abortSignal typeLineEx) 3 rfl

/-- C5 counterexample: invoking the play operation while one unaborted,
unfinished reveal is in flight leaves that reveal unaborted — afterwards two
reveals are in flight — so `startTypewriter` does not first abort the
previously started, still-running reveal. -/
theorem startTypewriter_no_abort_counterexample :
    (startTypewriterCtl [⟨false, false⟩]).tail =
        [({ aborted := false, finished := false } : Reveal)] ∧
      inFlightCount (startTypewriterCtl [⟨false, false⟩]) = 2 :=
  ⟨rfl, rfl⟩

/-- An empty in-flight count says every reveal is aborted or finished. -/
theorem inFlightCount_eq_zero {rs : List Reveal} :
    inFlightCount rs = 0 ↔ ∀ r ∈ rs, ¬ inFlight r = true := by
  rw [inFlightCount]; exact List.countP_eq_zero

/-- `markFinished` only alters the head of the controller list. -/
theorem tail_markFinished (rs : List Reveal) :
    (markFinished rs).tail = rs.tail := by
  cases rs with
  | nil => rfl
  | cons r rs => rfl

/-- `abortHead` only alters the head of the controller list. -/
theorem tail_abortHead (rs : List Reveal) :
    (abortHead rs).tail = rs.tail := by
  cases rs with
  | nil => rfl
  | cons r rs => rfl

/-- Natural completion cannot put a reveal in flight. -/
theorem inFlightCount_markFinished (rs : List Reveal)
    (h : inFlightCount rs = 0) : inFlightCount (markFinished rs) = 0 := by
  have hall := inFlightCount_eq_zero.mp h
  refine inFlightCount_eq_zero.mpr ?_
  intro a ha
  cases rs with
  | nil => exact absurd ha (by simp [markFinished])
  | cons r rs =>
    rw [markFinished] at ha
    rcases List.mem_cons.mp ha with rfl | ha2
    · by_cases hab : r.aborted = true
      · rw [if_pos hab]
        exact hall r (List.mem_cons_self r rs)
      · rw [if_neg hab]
        simp [inFlight]
    · exact hall a (List.mem_cons_of_mem r ha2)

/-- Aborting the current controller empties the in-flight set whenever every
superseded controller is already out of flight. -/
theorem inFlightCount_abortHead (rs : List Reveal)
    (h : ∀ r ∈ rs.tail, inFlight r = false) :
    inFlightCount (abortHead rs) = 0 := by
  refine inFlightCount_eq_zero.mpr ?_
  intro a ha
  cases rs with
  | nil => exact absurd ha (by simp [abortHead])
  | cons r rs =>
    rw [abortHead] at ha
    rcases List.mem_cons.mp ha with rfl | ha2
    · simp [inFlight]
    · simp [h a (by simpa using ha2)]

/-- One event preserves the reveal-bookkeeping invariant. -/
theorem twInv_step (s : TWSys) (ev : TWEvent) (h : twInv s) : twInv (twStep s ev) := by
  obtain ⟨h1, h2⟩ := h
  cases ev with
  | openEnv =>
    by_cases hop : s.envelopeOpened = true
    · have hstep : twStep s TWEvent.openEnv = s := by rw [twStep, if_pos hop]
      rw [hstep]; exact ⟨h1, h2⟩
    · have hstep : twStep s TWEvent.openEnv =
          { envelopeOpened := true, reveals := startTypewriterCtl s.reveals } := by
        rw [twStep, if_neg hop]
      rw [hstep, twInv]
      have hcount : inFlightCount s.reveals = 0 := h1 (Bool.eq_false_iff.mpr hop)
      constructor
      · intro hcontr; exact absurd hcontr (by simp)
      · intro r hr
        have hr' : r ∈ s.reveals := by simpa [startTypewriterCtl] using hr
        exact Bool.eq_false_iff.mpr (inFlightCount_eq_zero.mp hcount r hr')
  | finishReveal =>
    have hstep : twStep s TWEvent.finishReveal =
        { s with reveals := markFinished s.reveals } := by rw [twStep]
    rw [hstep, twInv]
    constructor
    · intro hcl
      show inFlightCount (markFinished s.reveals) = 0
      exact inFlightCount_markFinished s.reveals (h1 hcl)
    · intro r hr
      have hr' : r ∈ s.reveals.tail := by
        have heq := tail_markFinished s.reveals
        simpa [heq] using hr
      exact h2 r hr'
  | replay =>
    have hstep : twStep s TWEvent.replay =
        { envelopeOpened := false, reveals := abortHead s.reveals } := by rw [twStep]
    rw [hstep, twInv]
    constructor
    · intro _
      show inFlightCount (abortHead s.reveals) = 0
      exact inFlightCount_abortHead s.reveals h2
    · intro r hr
      have hr' : r ∈ s.reveals.tail := by
        have heq := tail_abortHead s.reveals
        simpa [heq] using hr
      exact h2 r hr'

/-- The invariant bounds the number of in-flight reveals by one. -/
theorem twInv_count_le_one (s : TWSys) (h : twInv s) :
    inFlightCount s.reveals ≤ 1 := by
  obtain ⟨-, h2⟩ := h
  cases hrv : s.reveals with
  | nil => simp [inFlightCount]
  | cons r rs =>
    rw [inFlightCount, List.countP_cons]
    have htail : rs.countP (fun x => inFlight x) = 0 :=
      List.countP_eq_zero.mpr (fun a ha => by
        simp [h2 a (by rw [hrv]; simpa using ha)])
    rw [htail]
    split <;> omega

/-- Every event sequence from page load keeps the invariant. -/
theorem twInv_foldl (es : List TWEvent) : twInv (es.foldl twStep twInit) := by
  induction es using List.reverseRecOn with
  | nil =>
    exact ⟨fun _ => rfl, fun r hr => absurd hr (by simp [twInit])⟩
  | append_singleton es ev ih =>
    rw [List.foldl_append, List.foldl_cons, List.foldl_nil]
    exact twInv_step _ ev ih

/-- C5 (amended): `startTypewriter` does not abort the previous reveal — it
only installs a fresh controller, leaving every earlier controller exactly
as it was — yet along every sequence of page events (envelope opening,
natural completion, replay) at most one reveal is ever in flight, because
`openEnvelope` is guarded by `envelopeOpened` and the replay handler aborts
the current reveal while closing that guard. -/
theorem typewriter_single_flight_amended :
    (∀ rs, (startTypewriterCtl rs).tail = rs) ∧
    (∀ es : List TWEvent, inFlightCount (es.foldl twStep twInit).reveals ≤ 1) := by
  refine ⟨fun rs => rfl, fun es => ?_⟩
  exact twInv_count_le_one _ (twInv_foldl es)

/-- The frame update never changes a piece's vertical velocity. -/
theorem updateConfettiPiece_velocityY (sinQ : ℚ → ℚ) (H : ℚ) (p : Confetti) :
    (updateConfettiPiece sinQ H p).velocityY = p.velocityY := rfl

/-- The frame update advances `y` by exactly `velocityY`. -/
theorem updateConfettiPiece_y (sinQ : ℚ → ℚ) (H : ℚ) (p : Confetti) :
    (updateConfettiPiece sinQ H p).y = p.y + p.velocityY := rfl

/-- Iterated frame updates keep `velocityY` fixed. -/
theorem updateConfettiPiece_iter_velocityY (sinQ : ℚ → ℚ) (H : ℚ) (p : Confetti) :
    ∀ n : ℕ, ((updateConfettiPiece sinQ H)^[n] p).velocityY = p.velocityY := by
  intro n
  induction n with
  | zero => rfl
  | succ n ih =>
    rw [Function.iterate_succ_apply', updateConfettiPiece_velocityY, ih]

/-- After `n` frame updates a piece has fallen by `n · velocityY`. -/
theorem updateConfettiPiece_iter_y (sinQ : ℚ → ℚ) (H : ℚ) (p : Confetti) :
    ∀ n : ℕ, ((updateConfettiPiece sinQ H)^[n] p).y = p.y + n * p.velocityY := by
  intro n
  induction n with
  | zero => simp
  | succ n ih =>
    rw [Function.iterate_succ_apply', updateConfettiPiece_y, ih,
      updateConfettiPiece_iter_velocityY]
    push_cast
    ring

/-- A piece surviving `n` system ticks is the `n`-fold update of a seed. -/
theorem confettiTick_iter_mem (sinQ : ℚ → ℚ) (H : ℚ) :
    ∀ (n : ℕ) (ps : List Confetti) (p : Confetti),
      p ∈ (confettiTick sinQ H)^[n] ps →
      ∃ q ∈ ps, p = (updateConfettiPiece sinQ H)^[n] q := by
  intro n
  induction n with
  | zero => intro ps p hp; exact ⟨p, hp, rfl⟩
  | succ n ih =>
    intro ps p hp
    rw [Function.iterate_succ_apply] at hp
    obtain ⟨q, hq, rfl⟩ := ih (confettiTick sinQ H ps) p hp
    rw [confettiTick] at hq
    obtain ⟨q0, hq0, rfl⟩ := List.mem_map.mp (List.mem_filter.mp hq).1
    exact ⟨q0, hq0, by rw [Function.iterate_succ_apply]⟩

/-- A piece surviving at least one system tick passed the survival filter. -/
theorem confettiTick_iter_alive (sinQ : ℚ → ℚ) (H : ℚ) (n : ℕ)
    (ps : List Confetti) (p : Confetti)
    (hp : p ∈ (confettiTick sinQ H)^[n + 1] ps) : confettiAlive H p = true := by
  rw [Function.iterate_succ_apply', confettiTick] at hp
  exact (List.mem_filter.mp hp).2

/-- A common number of ticks after which every seed of a finite batch with
positive downward velocity has fallen past the cull line. -/
theorem confetti_bound (H : ℚ) (ps : List Confetti)
    (hv : ∀ p ∈ ps, 0 < p.velocityY) :
    ∃ N : ℕ, ∀ p ∈ ps, H + 50 ≤ p.y + ((N : ℚ) + 1) * p.velocityY := by
  induction ps with
  | nil => exact ⟨0, by simp⟩
  | cons q qs ih =>
    obtain ⟨N1, hN1⟩ := ih (fun p hp => hv p (List.mem_cons_of_mem q hp))
    obtain ⟨N2, hN2⟩ := exists_nat_gt ((H + 50 - q.y) / q.velocityY)
    refine ⟨max N1 N2, ?_⟩
    intro p hp
    rcases List.mem_cons.mp hp with rfl | hp2
    · have hq : 0 < p.velocityY := hv p (List.mem_cons_self p qs)
      have h2 : H + 50 - p.y < N2 * p.velocityY := by
        rw [div_lt_iff₀ hq] at hN2
        linarith
      have hcast : (N2 : ℚ) ≤ ((max N1 N2 : ℕ) : ℚ) + 1 := by
        have h := le_max_right N1 N2
        have : (N2 : ℚ) ≤ ((max N1 N2 : ℕ) : ℚ) := by exact_mod_cast h
        linarith
      have hmul : (N2 : ℚ) * p.velocityY ≤ (((max N1 N2 : ℕ) : ℚ) + 1) * p.velocityY :=
        mul_le_mul_of_nonneg_right hcast (le_of_lt hq)
      linarith
    · have hvp : 0 < p.velocityY := hv p (List.mem_cons_of_mem q hp2)
      have hN1p := hN1 p hp2
      have hcast : ((N1 : ℚ) + 1) ≤ ((max N1 N2 : ℕ) : ℚ) + 1 := by
        have h := le_max_left N1 N2
        have : (N1 : ℚ) ≤ ((max N1 N2 : ℕ) : ℚ) := by exact_mod_cast h
        linarith
      have hmul : ((N1 : ℚ) + 1) * p.velocityY ≤
          (((max N1 N2 : ℕ) : ℚ) + 1) * p.velocityY :=
        mul_le_mul_of_nonneg_right hcast (le_of_lt hvp)
      linarith

/-- A batch of pieces that all fall drains in finitely many ticks. -/
theorem confettiTick_iter_empty (sinQ : ℚ → ℚ) (H : ℚ) (ps : List Confetti)
    (hv : ∀ p ∈ ps, 0 < p.velocityY) :
    ∃ n : ℕ, (confettiTick sinQ H)^[n] ps = [] := by
  obtain ⟨N, hN⟩ := confetti_bound H ps hv
  refine ⟨N + 1, List.eq_nil_iff_forall_not_mem.mpr ?_⟩
  intro p hp
  have halive := confettiTick_iter_alive sinQ H N ps p hp
  obtain ⟨q, hq, rfl⟩ := confettiTick_iter_mem sinQ H (N + 1) ps p hp
  rw [confettiAlive, Bool.and_eq_true, decide_eq_true_eq, decide_eq_true_eq] at halive
  have hlt := halive.1
  rw [updateConfettiPiece_iter_y] at hlt
  have hbound := hN q hq
  push_cast at hlt
  linarith

/-- C6: every piece seeded by `createConfettiPiece` (its velocity draw lying
in `[0, 1)`) has strictly positive downward velocity; one tick never grows
the active set; any batch of strictly falling pieces drains to the empty
list after finitely many ticks with no further seeding; and the frame whose
tick empties the list does not store a fresh animation-frame handle, i.e.
schedules no further tick. -/
theorem confetti_burst_terminates :
    (∀ W H piQ r, 0 ≤ ConfettiRand.rVy r →
      0 < (createConfettiPiece W H piQ r).velocityY) ∧
    (∀ (sinQ : ℚ → ℚ) (H : ℚ) ps, (confettiTick sinQ H ps).length ≤ ps.length) ∧
    (∀ (sinQ : ℚ → ℚ) (H : ℚ) ps, (∀ p ∈ ps, 0 < p.velocityY) →
      ∃ n : ℕ, (confettiTick sinQ H)^[n] ps = []) ∧
    (∀ (sinQ : ℚ → ℚ) (H : ℚ) nextId s,
      confettiTick sinQ H s.confettiPieces = [] →
      animateConfetti sinQ H nextId s =
        { confettiPieces := [],
          confettiAnimationId := s.confettiAnimationId }) := by
  refine ⟨?_, ?_, confettiTick_iter_empty, ?_⟩
  · intro W H piQ r h
    show 0 < 3 / 2 + r.rVy * 3
    nlinarith
  · intro sinQ H ps
    rw [confettiTick]
    calc ((ps.map (updateConfettiPiece sinQ H)).filter (confettiAlive H)).length
        ≤ (ps.map (updateConfettiPiece sinQ H)).length :=
          List.length_filter_le _ _
      _ = ps.length := List.length_map _ _
  · intro sinQ H nextId s hts
    rw [animateConfetti]
    simp [hts]

/-- C6 witness: a single concrete falling piece on a 100-px canvas drains in
finitely many ticks. -/
theorem confetti_burst_terminates_witness :
    ∃ n : ℕ, (confettiTick (fun _ => 0) 100)^[n] [confettiPieceEx] = [] := by
  refine confetti_burst_terminates.2.2.1 (fun _ => 0) 100 [confettiPieceEx] ?_
  intro p hp
  rw [List.mem_singleton] at hp
  subst hp
  norm_num [confettiPieceEx]

/-- C9: the replay handler ignores the previous state entirely, so running
it twice with the same injected randomness is literally the same as running
it once; and even with fresh randomness on the second run, every component
named by the claim (selection set, failure counter, evasion state,
typewriter content and controller, particle sets, stage) ends in the
identical state the first run established. -/
theorem resetAll_idempotent :
    (∀ rand originals s,
      resetAll rand originals (resetAll rand originals s) =
        resetAll rand originals s) ∧
    (∀ rand1 rand2 originals s,
      (resetAll rand2 originals (resetAll rand1 originals s)).selectedCells =
          (resetAll rand1 originals s).selectedCells ∧
      (resetAll rand2 originals (resetAll rand1 originals s)).failureCount =
          (resetAll rand1 originals s).failureCount ∧
      (resetAll rand2 originals (resetAll rand1 originals s)).evade =
          (resetAll rand1 originals s).evade ∧
      (resetAll rand2 originals (resetAll rand1 originals s)).twLines =
          (resetAll rand1 originals s).twLines ∧
      (resetAll rand2 originals (resetAll rand1 originals s)).twController =
          (resetAll rand1 originals s).twController ∧
      (resetAll rand2 originals (resetAll rand1 originals s)).confetti =
          (resetAll rand1 originals s).confetti ∧
      (resetAll rand2 originals (resetAll rand1 originals s)).stars =
          (resetAll rand1 originals s).stars ∧
      (resetAll rand2 originals (resetAll rand1 originals s)).starAnimId =
          (resetAll rand1 originals s).starAnimId ∧
      (resetAll rand2 originals (resetAll rand1 originals s)).heartInterval =
          (resetAll rand1 originals s).heartInterval ∧
      (resetAll rand2 originals (resetAll rand1 originals s)).currentPage =
          (resetAll rand1 originals s).currentPage) :=
  ⟨fun _ _ _ => rfl,
   fun _ _ _ _ => ⟨rfl, rfl, rfl, rfl, rfl, rfl, rfl, rfl, rfl, rfl⟩⟩

/-- C10: when a tick empties the active set the frame-handle variable keeps
its previous (stale) value; a later `launchConfetti` against a non-`none`
handle appends 150 un-advanced pieces and neither ticks nor restarts the
loop; `stopConfetti` clears nothing (its body is empty); only the replay
handler clears the pieces and the handle. -/
theorem confetti_stale_handle :
    (∀ (sinQ : ℚ → ℚ) (H : ℚ) nextId s,
      confettiTick sinQ H s.confettiPieces = [] →
      (animateConfetti sinQ H nextId s).confettiAnimationId =
        s.confettiAnimationId) ∧
    (∀ (W H piQ : ℚ) (sinQ : ℚ → ℚ) rands nextId s k,
      s.confettiAnimationId = some k →
      launchConfetti W H piQ sinQ rands nextId s =
        { confettiPieces := s.confettiPieces ++
            (List.range 150).map (fun i => createConfettiPiece W H piQ (rands i)),
          confettiAnimationId := some k }) ∧
    (∀ s, stopConfetti s = s) ∧
    (∀ rand originals s,
      (resetAll rand originals s).confetti =
        ({ confettiPieces := [], confettiAnimationId := none } : ConfettiSys)) := by
  refine ⟨?_, ?_, fun s => rfl, fun _ _ _ => rfl⟩
  · intro sinQ H nextId s hts
    rw [animateConfetti]
    simp [hts]
  · intro W H piQ sinQ rands nextId s k hk
    obtain ⟨ps, id⟩ := s
    simp only at hk
    subst hk
    rw [launchConfetti]
    simp

/-- C10 witness: launching against a stale handle `some 7` appends the 150
pieces and leaves the handle and the loop untouched. -/
theorem confetti_stale_handle_witness :
    launchConfetti 100 100 3 (fun _ => 0) (fun _ => confettiRandEx) 9
        ⟨[], some 7⟩ =
      { confettiPieces := [] ++
          (List.range 150).map (fun i => createConfettiPiece 100 100 3
            ((fun _ => confettiRandEx) i)),
        confettiAnimationId := some 7 } :=
  confetti_stale_handle.2.1 100 100 3 (fun _ => 0) (fun _ => confettiRandEx) 9
    ⟨[], some 7⟩ 7 rfl

end Valentine
